import Mathlib

/-!
Shallow embedding of `src/weekly_update.py` (the Fore-cast weekly update
pipeline): name normalization, identity resolution, round aggregation,
skill-snapshot building, and the orchestrator's per-player write loop.

Modelling conventions:
* Python floats are modelled as exact rationals (`ℚ`); `round(x, 3)` is
  modelled as exact half-to-even rounding at three decimal places.
* Nullable scraped values (JS `null` / pandas `NaN`) are `Option` values.
* The Supabase query layer is modelled as list filtering in list order: a
  `.eq` / `.ilike` query returns the matching records in registry order.
* String functions are implemented on the underlying character lists so
  every definition evaluates by kernel reduction on concrete inputs.
-/

/-! ### Character and string helpers -/

/-- Splitter behind Python `str.split()`: runs of whitespace separate
tokens, empty pieces are dropped.  `acc` holds the current token reversed. -/
def splitWsAux : List Char → List Char → List String
  | [], acc => if acc = [] then [] else [String.mk acc.reverse]
  | c :: rest, acc =>
    if c.isWhitespace then
      (if acc = [] then [] else [String.mk acc.reverse]) ++ splitWsAux rest []
    else splitWsAux rest (c :: acc)

/-- Python `str.split()`: whitespace-delimited tokens, empty pieces dropped. -/
def pyTokens (s : String) : List String := splitWsAux s.toList []

/-- Python `str.lower()` (ASCII case folding, as in the scraped names). -/
def strLower (s : String) : String := String.mk (s.toList.map Char.toLower)

/-- Does `hay` start with `needle`? -/
def leadsWith : List Char → List Char → Bool
  | [], _ => true
  | _ :: _, [] => false
  | a :: as, b :: bs => a = b && leadsWith as bs

/-- Does `needle` occur contiguously inside `hay`? -/
def occursIn (needle hay : List Char) : Bool :=
  match hay with
  | [] => needle = []
  | _ :: rest => leadsWith needle hay || occursIn needle rest

/-- Case-insensitive substring test, modelling both the SQL
`ilike '%needle%'` filter and Python `needle in hay.lower()` for an
already-lowercase needle. -/
def containsCI (hay needle : String) : Bool :=
  occursIn (needle.toList.map Char.toLower) (hay.toList.map Char.toLower)

/-- Plain substring test, Python `needle in hay`. -/
def substrOf (needle hay : String) : Bool :=
  occursIn needle.toList hay.toList

/-- Python `str.strip()` on a character list (drop whitespace at both ends). -/
def stripChars (l : List Char) : List Char :=
  ((l.dropWhile Char.isWhitespace).reverse.dropWhile Char.isWhitespace).reverse

/-- Python `str.strip()`. -/
def pyStrip (s : String) : String :=
  String.mk (stripChars s.toList)

/-- Value of a digit string (most significant first). -/
def digitsToNat (l : List Char) : Nat :=
  l.foldl (fun acc c => acc * 10 + (c.toNat - 48)) 0

/-- Exponent part of a Python float literal (after `e`/`E`): optional sign,
then at least one digit consuming the rest of the string. -/
def parseExp (l : List Char) : Option ℤ :=
  let sgn : ℤ := if l.head? = some '-' then -1 else 1
  let l2 := if l.head? = some '-' ∨ l.head? = some '+' then l.drop 1 else l
  if l2 ≠ [] ∧ l2.all Char.isDigit then some (sgn * (digitsToNat l2 : ℤ)) else none

/-- Python `float(s)` on finite decimal literals: optional surrounding
whitespace, optional sign, an integer and/or fractional digit part, and an
optional exponent.  `inf`/`nan` spellings and underscores are not modelled
(no claim depends on them).  Returns `none` where `float()` raises. -/
def pyFloat? (s : String) : Option ℚ :=
  let l0 := stripChars s.toList
  let sgn : ℚ := if l0.head? = some '-' then -1 else 1
  let l1 := if l0.head? = some '-' ∨ l0.head? = some '+' then l0.drop 1 else l0
  let ip := l1.takeWhile Char.isDigit
  let r1 := l1.dropWhile Char.isDigit
  let fp := if r1.head? = some '.' then (r1.drop 1).takeWhile Char.isDigit else []
  let r2 := if r1.head? = some '.' then (r1.drop 1).dropWhile Char.isDigit else r1
  if ip = [] ∧ fp = [] then none
  else
    let mant : ℚ := (digitsToNat ip : ℚ) + (digitsToNat fp : ℚ) / ((10 : ℚ) ^ fp.length)
    match r2 with
    | [] => some (sgn * mant)
    | c :: rest =>
      if c = 'e' ∨ c = 'E' then
        match parseExp rest with
        | some e => some (sgn * mant * (10 : ℚ) ^ e)
        | none => none
      else none

/-- Round a rational to the nearest integer, ties to even — the rounding that
CPython `round` performs (modelled on exact rationals, not binary floats). -/
def halfEven (q : ℚ) : ℤ :=
  let f := ⌊q⌋
  let r := q - (f : ℚ)
  if r < 1/2 then f
  else if (1 : ℚ)/2 < r then f + 1
  else if f % 2 = 0 then f else f + 1

/-- Python `round(x, 3)` on exact rationals. -/
def round3 (q : ℚ) : ℚ := (halfEven (q * 1000) : ℚ) / 1000

/-- Python `int()` truncation toward zero on a rational. -/
def ratTrunc (q : ℚ) : ℤ := if 0 ≤ q then ⌊q⌋ else -⌊-q⌋

/-- Zero-pad a number to `w` digits, as `strftime` does. -/
def padNum (w n : Nat) : String :=
  let s := toString n
  String.mk (List.replicate (w - s.length) '0') ++ s

/-- `datetime.strftime("%Y-%m-%d")`. -/
def formatYMD (y m d : Nat) : String :=
  padNum 4 y ++ "-" ++ padNum 2 m ++ "-" ++ padNum 2 d

/-- Month abbreviations recognized by `%b` in the C locale (matched
case-insensitively, as CPython compiles its `strptime` regex with
`IGNORECASE`). -/
def monthAbbrevs : List String :=
  ["jan", "feb", "mar", "apr", "may", "jun", "jul", "aug", "sep", "oct", "nov", "dec"]

/-- Days in a month, with the Gregorian leap rule (`datetime` validates the
parsed day against it and raises on e.g. `Feb 30`). -/
def daysInMonth (y m : Nat) : Nat :=
  if m = 2 then (if y % 4 = 0 ∧ (y % 100 ≠ 0 ∨ y % 400 = 0) then 29 else 28)
  else if m = 4 ∨ m = 6 ∨ m = 9 ∨ m = 11 then 30 else 31

/-- `datetime.strptime(s, "%b %d, %Y")` from `process_tournament_records`:
a three-letter month abbreviation (case-insensitive), one or more
whitespace characters (CPython turns literal whitespace in the format into
`\s+`), a 1–2 digit day in 1..31, a literal comma, whitespace, exactly four
digits of year, end of string; then `datetime` itself validates the day
against the month and requires year ≥ 1.  Returns `(year, month, day)`. -/
def parseMDY (s : String) : Option (Nat × Nat × Nat) :=
  let l := s.toList
  let mstr := String.mk ((l.take 3).map Char.toLower)
  match monthAbbrevs.findIdx? (fun x => x = mstr) with
  | none => none
  | some mi =>
    let m := mi + 1
    let r1 := l.drop 3
    let r2 := r1.dropWhile Char.isWhitespace
    if r1.takeWhile Char.isWhitespace = [] then none
    else
      let ds := r2.takeWhile Char.isDigit
      let r3 := r2.dropWhile Char.isDigit
      if ds = [] ∨ 2 < ds.length then none
      else
        let d := digitsToNat ds
        if d = 0 ∨ 31 < d then none
        else
          match r3 with
          | [] => none
          | c :: r4 =>
            if c = ',' then
              let r5 := r4.dropWhile Char.isWhitespace
              if r4.takeWhile Char.isWhitespace = [] then none
              else
                let ys := r5.takeWhile Char.isDigit
                let r6 := r5.dropWhile Char.isDigit
                if ys.length = 4 ∧ r6 = [] then
                  let y := digitsToNat ys
                  if 1 ≤ y ∧ d ≤ daysInMonth y m then some (y, m, d) else none
                else none
            else none

/-- pandas `first` aggregation: the first non-null entry of the column. -/
def firstSome {α : Type} (l : List (Option α)) : Option α :=
  (l.filterMap id).head?

/-- pandas `mean` aggregation on an already null-filtered column: the
arithmetic mean of the values, `NaN` (here `none`) for an empty column. -/
def meanOpt (l : List ℚ) : Option ℚ :=
  if l = [] then none else some (l.sum / l.length)

/-! ### Round aggregation (`process_tournament_records`, lines 164–208) -/

/-- One scraped round row of `window.new_data`.  Strokes-gained components
and scores may be null; `arg` is around-the-green, `ott` off-the-tee. -/
structure RawRound where
  event_name : String
  date : String
  course_name : Option String
  fin_numeric : Option ℚ
  fin_text : Option String
  total : Option ℚ
  ott : Option ℚ
  app : Option ℚ
  arg : Option ℚ
  putt : Option ℚ
  round_score : Option ℤ
deriving DecidableEq, Repr

/-- The sentinel filter applied to each strokes-gained column: a value at or
below `-9000` becomes null (`df[col].apply(lambda x: None if ... x <= -9000
else x)`). -/
def cleanSG (x : Option ℚ) : Option ℚ :=
  match x with
  | none => none
  | some v => if v ≤ -9000 then none else some v

/-- The distinct `(event_name, date)` group keys of the data frame, in first
appearance order.  (pandas emits groups sorted by key; no property below
depends on the order of groups, only on their set.) -/
def groupKeyList (rows : List RawRound) : List (String × String) :=
  (rows.map fun r => (r.event_name, r.date)).eraseDups

/-- The rows of one `(event_name, date)` group. -/
def rowsOf (rows : List RawRound) (k : String × String) : List RawRound :=
  rows.filter fun r => (r.event_name, r.date) = k

/-- One aggregated group: `first` for course/finish columns, `mean` over the
sentinel-cleaned strokes-gained columns, `sum` (null-skipping) for the
round scores. -/
structure AggGroup where
  event_name : String
  date : String
  course_name : Option String
  fin_numeric : Option ℚ
  fin_text : Option String
  total : Option ℚ
  ott : Option ℚ
  app : Option ℚ
  arg : Option ℚ
  putt : Option ℚ
  round_score : ℤ
deriving DecidableEq, Repr

/-- The `df.groupby(["event_name", "date"]).agg(...)` row for key `k`. -/
def aggOf (rows : List RawRound) (k : String × String) : AggGroup :=
  { event_name := k.1
    date := k.2
    course_name := firstSome ((rowsOf rows k).map (fun r => r.course_name))
    fin_numeric := firstSome ((rowsOf rows k).map (fun r => r.fin_numeric))
    fin_text := firstSome ((rowsOf rows k).map (fun r => r.fin_text))
    total := meanOpt ((rowsOf rows k).filterMap (fun r => cleanSG r.total))
    ott := meanOpt ((rowsOf rows k).filterMap (fun r => cleanSG r.ott))
    app := meanOpt ((rowsOf rows k).filterMap (fun r => cleanSG r.app))
    arg := meanOpt ((rowsOf rows k).filterMap (fun r => cleanSG r.arg))
    putt := meanOpt ((rowsOf rows k).filterMap (fun r => cleanSG r.putt))
    round_score := ((rowsOf rows k).filterMap (fun r => r.round_score)).sum }

/-- One upserted `historical_tournament_results` row. -/
structure TournamentRecord where
  pga_player_id : String
  tournament_name : String
  course_name : String
  tournament_date : String
  finish_position : Option ℤ
  is_made_cut : Bool
  total_score : Option ℤ
  strokes_gained_total : Option ℚ
  strokes_gained_putting : Option ℚ
  strokes_gained_approach : Option ℚ
  strokes_gained_around_green : Option ℚ
  strokes_gained_off_tee : Option ℚ
deriving DecidableEq, Repr

/-- The finish texts treated as a missed cut. -/
def finTerminal : List String := ["CUT", "WD", "DQ", "MDF"]

/-- The record literal built for one aggregated group (source lines
194–207).  `total_score` is always non-null because the pandas
null-skipping `sum` never yields `NaN`; `course_name or ""` is modelled for
the null case (a pandas `NaN` float is truthy in Python, but no claim
touches `course_name`). -/
def recordOfGroup (pid : String) (g : AggGroup) (ymd : Nat × Nat × Nat) :
    TournamentRecord :=
  { pga_player_id := pid
    tournament_name := g.event_name
    course_name := g.course_name.getD ""
    tournament_date := formatYMD ymd.1 ymd.2.1 ymd.2.2
    finish_position := g.fin_numeric.bind (fun v => if v < 900 then some (ratTrunc v) else none)
    is_made_cut := !(g.fin_text.any (fun t => finTerminal.contains t))
    total_score := some g.round_score
    strokes_gained_total := g.total.map round3
    strokes_gained_putting := g.putt.map round3
    strokes_gained_approach := g.app.map round3
    strokes_gained_around_green := g.arg.map round3
    strokes_gained_off_tee := g.ott.map round3 }

/-- `process_tournament_records`: group, aggregate, and emit one record per
group whose scraped date parses as `"%b %d, %Y"`; a group whose date fails
to parse is skipped by the `except: continue`. -/
def processTournamentRecords (rows : List RawRound) (pid : String) :
    List TournamentRecord :=
  (groupKeyList rows).filterMap fun k =>
    (parseMDY k.2).map (recordOfGroup pid (aggOf rows k))

/-! ### Identity resolution (`get_player_id`, lines 117–126) -/

/-- One `pga_players` registry record. -/
structure PlayerRec where
  id : String
  name : String
deriving DecidableEq, Repr

/-- `p["name"].split()[-1].lower()` as an `Option` (the Python code raises
`IndexError` on a name with no tokens; the theorems below hypothesize
non-empty names, where the two agree). -/
def lastTokenLower (s : String) : Option String :=
  ((pyTokens s).getLast?).map strLower

/-- `get_player_id`: an exact `.eq("name", name)` lookup first (take the
first returned row), else an `.ilike("name", "%last%")` substring query
over the last whitespace token, returning the first candidate whose own
last token matches case-insensitively, else `None`. -/
def getPlayerId (registry : List PlayerRec) (name : String) : Option String :=
  match (registry.filter (fun p => p.name == name)).head? with
  | some p => some p.id
  | none =>
    match (pyTokens name).getLast? with
    | none => none
    | some last =>
      match (registry.filter (fun p => containsCI p.name last)).find?
              (fun p => lastTokenLower p.name == some (strLower last)) with
      | some p => some p.id
      | none => none

/-- The resolver as the spec's §4.2 words it: exact match, else the first
registry record that both contains the surname key as a case-insensitive
substring and whose own last token equals it case-insensitively, else
not-found. -/
def resolverSpec (registry : List PlayerRec) (name : String) : Option String :=
  match registry.find? (fun p => p.name == name) with
  | some p => some p.id
  | none =>
    match (pyTokens name).getLast? with
    | none => none
    | some last =>
      (registry.find? (fun p =>
          containsCI p.name last && lastTokenLower p.name == some (strLower last))).map
        (fun p => p.id)

/-! ### Skill snapshots (`process_skills`, lines 211–247) -/

/-- One `break_skills` entry: a category key with a percentile and an
absolute strokes-gained value (the raw value is modelled by its string
form, as `sg` applies `str(x)` first). -/
structure SkillRec where
  bin : String
  perc : Option ℚ
  val : Option String
deriving DecidableEq, Repr

/-- The scraped `reload_data` payload (the parts `process_skills` reads). -/
structure ReloadData where
  dg_id : Option ℤ
  break_skills : List SkillRec
deriving DecidableEq, Repr

/-- `{s["bin"]: s["perc"] for s in skills}.get(k)`: a later duplicate bin
overwrites an earlier one; an absent key and a null percentile both give
null. -/
def percOf (skills : List SkillRec) (k : String) : Option ℚ :=
  (skills.reverse.find? (fun s => s.bin == k)).bind (fun s => s.perc)

/-- `{s["bin"]: s["val"] for s in skills}.get(k)`, as for `percOf`. -/
def valOf (skills : List SkillRec) (k : String) : Option String :=
  (skills.reverse.find? (fun s => s.bin == k)).bind (fun s => s.val)

/-- Python `s.replace(c, "")`: removes every occurrence, not only a
leading one. -/
def removeChar (c : Char) (s : String) : String :=
  String.mk (s.toList.filter (fun x => x ≠ c))

/-- The `sg` helper inside `process_skills`:
`round(float(str(x).replace("+", "")), 3)`, `None` on failure.  A null
input gives `str(None) = "None"`, which `float` rejects. -/
def sgParse (x : Option String) : Option ℚ :=
  match x with
  | none => none
  | some s => (pyFloat? (removeChar '+' s)).map round3

/-- One `pga_players` skill-profile update payload. -/
structure SkillSnapshot where
  dg_id : Option ℤ
  driving_overall : Option ℚ
  driving_distance : Option ℚ
  driving_accuracy : Option ℚ
  approach_overall : Option ℚ
  approach_50_100 : Option ℚ
  approach_100_150 : Option ℚ
  approach_150_200 : Option ℚ
  approach_200_plus : Option ℚ
  around_green_overall : Option ℚ
  around_green_fairway : Option ℚ
  around_green_rough : Option ℚ
  around_green_bunker : Option ℚ
  putting_overall : Option ℚ
  putting_2_5_feet : Option ℚ
  putting_5_30 : Option ℚ
  putting_30_plus : Option ℚ
  sg_driving : Option ℚ
  sg_approach : Option ℚ
  sg_around_green : Option ℚ
  sg_putting : Option ℚ
  skills_updated_at : String
deriving DecidableEq, Repr

/-- `process_skills`.  The build-time clock read
(`datetime.utcnow().isoformat()`) is passed explicitly as `now`. -/
def processSkills (rd : Option ReloadData) (now : String) : Option SkillSnapshot :=
  match rd with
  | none => none
  | some r =>
    if r.break_skills = [] then none
    else
      some
      { dg_id := r.dg_id
        driving_overall := percOf r.break_skills "driving"
        driving_distance := percOf r.break_skills "ott_1"
        driving_accuracy := percOf r.break_skills "ott_2"
        approach_overall := percOf r.break_skills "approach"
        approach_50_100 := percOf r.break_skills "app_1"
        approach_100_150 := percOf r.break_skills "app_2"
        approach_150_200 := percOf r.break_skills "app_3"
        approach_200_plus := percOf r.break_skills "app_4"
        around_green_overall := percOf r.break_skills "around"
        around_green_fairway := percOf r.break_skills "arg_1"
        around_green_rough := percOf r.break_skills "arg_2"
        around_green_bunker := percOf r.break_skills "arg_3"
        putting_overall := percOf r.break_skills "putting"
        putting_2_5_feet := percOf r.break_skills "putt_1"
        putting_5_30 := percOf r.break_skills "putt_2"
        putting_30_plus := percOf r.break_skills "putt_3"
        sg_driving := sgParse (valOf r.break_skills "driving")
        sg_approach := sgParse (valOf r.break_skills "approach")
        sg_around_green := sgParse (valOf r.break_skills "around")
        sg_putting := sgParse (valOf r.break_skills "putting")
        skills_updated_at := now }

/-- Forget the freshness timestamp of a snapshot. -/
def eraseTime (s : SkillSnapshot) : SkillSnapshot :=
  { s with skills_updated_at := "" }

/-- The spec's reading of the `sg` transform for claim C6: strip only a
LEADING plus sign, then parse and round. -/
def specSgLeadingPlus (x : Option String) : Option ℚ :=
  match x with
  | none => none
  | some s =>
    let l := if s.toList.head? = some '+' then s.toList.drop 1 else s.toList
    (pyFloat? (String.mk l)).map round3

/-! ### Player-list sources (lines 77–114, 251–292) -/

/-- The static `NAME_ALIASES` table (internal spelling → Data Golf
spelling). -/
def NAME_ALIASES : List (String × String) :=
  [("Nicolas Echavarria", "Nico Echavarria"),
   ("Matthias Schmid", "Matti Schmid"),
   ("Erik Van Rooyen", "Erik van Rooyen")]

/-- Python `NAME_ALIASES.get(name, name)`. -/
def aliasGet (name : String) : String :=
  ((NAME_ALIASES.find? (fun p => p.1 == name)).map (fun p => p.2)).getD name

/-- The predicate splitting a name at its first comma (`split(",", 1)`). -/
def notComma (c : Char) : Bool := decide (c ≠ ',')

/-- The inline per-name normalization in `fetch_field_from_past_results`
(lines 98–103): a name containing a comma is split at the first comma into
`last, first` and recomposed as `"{first.strip()} {last.strip()}"`; any
other name is stripped. -/
def normalizeScrapedName (s : String) : String :=
  if s.toList.contains ',' then
    String.mk (stripChars ((s.toList.dropWhile notComma).drop 1))
      ++ " " ++ String.mk (stripChars (s.toList.takeWhile notComma))
  else pyStrip s

/-- The player-name list produced by `fetch_field_from_past_results` from
the scraped `player_name` column: normalization only, no alias lookup. -/
def fetchFieldPlayers (rawNames : List String) : List String :=
  rawNames.map normalizeScrapedName

/-- `load_players_from_field_file`, on the file's lines: strip, skip
blanks, first comma-separated column, skip a `player`/`name` header in
line 0, apply the alias table, keep non-empty names. -/
def loadPlayersFromFieldFile (lines : List String) : List String :=
  lines.enum.filterMap fun ia =>
    let line := pyStrip ia.2
    if line = "" then none
    else
      let name := pyStrip (String.mk (line.toList.takeWhile (fun c => c ≠ ',')))
      if ia.1 = 0 ∧ (strLower name = "player" ∨ strLower name = "name") then none
      else if name = "" then none
      else some (aliasGet name)

/-- `load_players_from_tournament`, on the joined `pga_players(name)`
column: keep rows with a non-empty name, apply the alias table, and report
`None` when nothing remains. -/
def loadPlayersFromTournament (rows : List (Option String)) : Option (List String) :=
  let players := rows.filterMap fun pp =>
    match pp with
    | some n => if n ≠ "" then some (aliasGet n) else none
    | none => none
  if players = [] then none else some players

/-! ### The store and the orchestrator loop (`main`, lines 356–405) -/

/-- The `historical_tournament_results` table as a map keyed by the upsert
key `(pga_player_id, tournament_name, tournament_date)`. -/
def TournStore : Type := String × String × String → Option TournamentRecord

/-- The upsert key of a record. -/
def tournKey (r : TournamentRecord) : String × String × String :=
  (r.pga_player_id, r.tournament_name, r.tournament_date)

/-- Upsert one record: the row under its key is replaced in full. -/
def upsertTourn (s : TournStore) (r : TournamentRecord) : TournStore :=
  fun k => if k = tournKey r then some r else s k

/-- The batch upsert of one player's records. -/
def upsertTournBatch (s : TournStore) (recs : List TournamentRecord) : TournStore :=
  recs.foldl upsertTourn s

/-- Outcomes the store can give the two upsert calls of one player (the
keyed `on_conflict=...` upsert and the plain fallback upsert), as the
orchestrator observes them: success or a raised error message. -/
structure StoreBehavior where
  keyed : Except String Unit
  plain : Except String Unit

/-- What the `try/except` tournament-write block (lines 376–385) does:
which writes were attempted, the `tourn_ok` increment, whether any upsert
actually succeeded, and the exception (if any) escaping the block. -/
structure WriteResult where
  fallbackAttempted : Bool
  tournOkDelta : Nat
  wrote : Bool
  uncaught : Option String
deriving DecidableEq, Repr

/-- The tournament-write block: on a keyed-upsert error the plain fallback
runs only when the message contains `"on_conflict"` (lower-cased); the
`tourn_ok += 1` inside the `except` block runs whenever no exception
escapes it. -/
def writeTournament (b : StoreBehavior) : WriteResult :=
  match b.keyed with
  | Except.ok _ => ⟨false, 1, true, none⟩
  | Except.error e =>
    if substrOf "on_conflict" (strLower e) then
      match b.plain with
      | Except.ok _ => ⟨true, 1, true, none⟩
      | Except.error e2 => ⟨true, 0, false, some e2⟩
    else ⟨false, 1, false, none⟩

/-- One player's iteration, abstracted to what the loop observes: no
registry id, no scraped data, or a run with records present or not, the
store's behavior, and skills present or not.  (The skills update is
modelled as succeeding; only the tournament write has a retry path in the
source.) -/
inductive PlayerStep where
  | noId : PlayerStep
  | noData : PlayerStep
  | run : Bool → StoreBehavior → Bool → PlayerStep

/-- Per-player loop body: `(tourn_ok delta, successful-write delta,
skills_ok delta, escaping exception)`. -/
def stepResult : PlayerStep → Nat × Nat × Nat × Option String
  | PlayerStep.noId => (0, 0, 0, none)
  | PlayerStep.noData => (0, 0, 0, none)
  | PlayerStep.run hasRecords store hasSkills =>
    if hasRecords then
      let w := writeTournament store
      match w.uncaught with
      | some e => (w.tournOkDelta, if w.wrote then 1 else 0, 0, some e)
      | none => (w.tournOkDelta, if w.wrote then 1 else 0, if hasSkills then 1 else 0, none)
    else (0, 0, if hasSkills then 1 else 0, none)

/-- End state of the player loop: players whose iteration began, the two
printed counters, the count of players whose tournament write actually
succeeded, and the exception that aborted the loop, if any (the outer
`try` catches only `KeyboardInterrupt`, so any other exception ends the
run). -/
structure RunState where
  processedCount : Nat
  tournOk : Nat
  tournWrites : Nat
  skillsOk : Nat
  aborted : Option String
deriving DecidableEq, Repr

/-- The `for name in players` loop of `main`. -/
def runLoop : List PlayerStep → RunState
  | [] => ⟨0, 0, 0, 0, none⟩
  | s :: rest =>
    match stepResult s with
    | (dt, dw, ds, some e) => ⟨1, dt, dw, ds, some e⟩
    | (dt, dw, ds, none) =>
      let r := runLoop rest
      ⟨r.processedCount + 1, r.tournOk + dt, r.tournWrites + dw, r.skillsOk + ds, r.aborted⟩

/-! ### Concrete inputs used by the claim theorems -/

/-- The two rows of the spec's C1 scenario: same event and date, totals
`1.2` and the sentinel `-9999`, round scores `68` and `70`. -/
def c1ScenarioRows : List RawRound :=
  [{ event_name := "Open"
     date := "Jun 1, 2024"
     course_name := some "Course"
     fin_numeric := some 5
     fin_text := some "T5"
     total := some ((6 : ℚ)/5)
     ott := none
     app := none
     arg := none
     putt := none
     round_score := some 68 },
   { event_name := "Open"
     date := "Jun 1, 2024"
     course_name := some "Course"
     fin_numeric := some 5
     fin_text := some "T5"
     total := some (-9999)
     ott := none
     app := none
     arg := none
     putt := none
     round_score := some 70 }]

/-- Three rows of one group with totals `1`, `1`, `2`: their mean `4/3` is
not representable in three decimals, so the emitted value is rounded. -/
def c1BadRows : List RawRound :=
  [{ event_name := "Open"
     date := "Jun 1, 2024"
     course_name := some "Course"
     fin_numeric := some 5
     fin_text := some "T5"
     total := some 1
     ott := none
     app := none
     arg := none
     putt := none
     round_score := some 70 },
   { event_name := "Open"
     date := "Jun 1, 2024"
     course_name := some "Course"
     fin_numeric := some 5
     fin_text := some "T5"
     total := some 1
     ott := none
     app := none
     arg := none
     putt := none
     round_score := some 71 },
   { event_name := "Open"
     date := "Jun 1, 2024"
     course_name := some "Course"
     fin_numeric := some 5
     fin_text := some "T5"
     total := some 2
     ott := none
     app := none
     arg := none
     putt := none
     round_score := some 69 }]

/-- A single round row whose finish text is `"CUT"`. -/
def c5CutRow : RawRound :=
  { event_name := "Open"
    date := "Jun 1, 2024"
    course_name := some "Course"
    fin_numeric := some 950
    fin_text := some "CUT"
    total := none
    ott := none
    app := none
    arg := none
    putt := none
    round_score := some 72 }

/-- A single round row whose finish text is `"T5"`. -/
def c5T5Row : RawRound :=
  { event_name := "Open"
    date := "Jun 1, 2024"
    course_name := some "Course"
    fin_numeric := some 5
    fin_text := some "T5"
    total := none
    ott := none
    app := none
    arg := none
    putt := none
    round_score := some 68 }

/-- Two groups, one with a parseable date and one whose date
`"June 1, 2024"` does not match `"%b %d, %Y"`. -/
def c7Rows : List RawRound :=
  [{ event_name := "Open"
     date := "Jun 1, 2024"
     course_name := some "Course"
     fin_numeric := some 5
     fin_text := some "T5"
     total := some 1
     ott := none
     app := none
     arg := none
     putt := none
     round_score := some 68 },
   { event_name := "Classic"
     date := "June 1, 2024"
     course_name := some "Course"
     fin_numeric := some 9
     fin_text := some "T9"
     total := some 1
     ott := none
     app := none
     arg := none
     putt := none
     round_score := some 66 }]

/-! ### Shared helper lemmas -/

/-- Taking the head of a filtered list is finding the first match. -/
theorem head?_filter_eq_find? {α : Type} (p : α → Bool) (l : List α) :
    (l.filter p).head? = l.find? p := by
  induction l with
  | nil => rfl
  | cons a as ih =>
    by_cases h : p a <;> simp [List.filter_cons, List.find?_cons, h, ih]

/-- Finding in a filtered list is finding with the conjoined predicate. -/
theorem find?_filter {α : Type} (p q : α → Bool) (l : List α) :
    (l.filter p).find? q = l.find? (fun a => p a && q a) := by
  induction l with
  | nil => rfl
  | cons a as ih =>
    by_cases hp : p a
    · by_cases hq : q a <;> simp [List.filter_cons, List.find?_cons, hp, hq, ih]
    · simp [List.filter_cons, List.find?_cons, hp, ih]

/-- The length of a `filterMap` counts the inputs that produce a value. -/
theorem length_filterMap_eq_countP {α β : Type} (f : α → Option β) (l : List α) :
    (l.filterMap f).length = l.countP (fun a => (f a).isSome) := by
  induction l with
  | nil => rfl
  | cons a as ih =>
    cases hf : f a <;> simp [List.filterMap_cons, hf, List.countP_cons, ih]

/-! ### Claim C1 -/

/-- Claim C1 as stated is false on the code: a group with totals `1`, `1`,
`2` (none at the sentinel) has arithmetic mean `4/3`, but the emitted
`strokes_gained_total` is the rounded `1.333`, which is not the mean. -/
theorem c1_counterexample :
    (processTournamentRecords c1BadRows "p").map (fun r => r.strokes_gained_total)
        = [some ((1333 : ℚ)/1000)]
    ∧ meanOpt ((c1BadRows.map (fun r => r.total)).filterMap cleanSG) = some ((4 : ℚ)/3)
    ∧ (1333 : ℚ)/1000 ≠ (4 : ℚ)/3 :=
  ⟨by with_unfolding_all rfl, by with_unfolding_all rfl, by with_unfolding_all decide⟩

/-- Claim C1 (amended): every emitted record's strokes-gained components
are the arithmetic mean of the non-sentinel, non-null values of its
`(event_name, date)` group, rounded half-to-even to three decimal places
(null if the group has no such values), and `total_score` is the sum of
the group's non-null round scores; the spec's scenario (totals `1.2` and
sentinel `-9999`, scores `68` and `70`) yields exactly one record with
`strokes_gained_total = 1.2` and `total_score = 138`. -/
theorem c1_amended (rows : List RawRound) (pid : String) (r : TournamentRecord)
    (hr : r ∈ processTournamentRecords rows pid) :
    (∃ k ∈ groupKeyList rows,
        r.strokes_gained_total
            = (meanOpt ((rowsOf rows k).filterMap (fun x => cleanSG x.total))).map round3
        ∧ r.strokes_gained_off_tee
            = (meanOpt ((rowsOf rows k).filterMap (fun x => cleanSG x.ott))).map round3
        ∧ r.strokes_gained_approach
            = (meanOpt ((rowsOf rows k).filterMap (fun x => cleanSG x.app))).map round3
        ∧ r.strokes_gained_around_green
            = (meanOpt ((rowsOf rows k).filterMap (fun x => cleanSG x.arg))).map round3
        ∧ r.strokes_gained_putting
            = (meanOpt ((rowsOf rows k).filterMap (fun x => cleanSG x.putt))).map round3
        ∧ r.total_score = some ((rowsOf rows k).filterMap (fun x => x.round_score)).sum)
    ∧ (processTournamentRecords c1ScenarioRows "p").map
          (fun x => (x.strokes_gained_total, x.total_score))
        = [(some ((6 : ℚ)/5), some 138)] := by
  constructor
  · obtain ⟨k, hk, he⟩ := List.mem_filterMap.mp hr
    refine ⟨k, hk, ?_⟩
    cases hp : parseMDY k.2 with
    | none => rw [hp] at he; simp at he
    | some ymd =>
      rw [hp] at he
      simp only [Option.map_some', Option.some.injEq] at he
      rw [← he]
      exact ⟨rfl, rfl, rfl, rfl, rfl, rfl⟩
  · with_unfolding_all rfl

/-- Witness for `c1_amended` at the spec scenario's rows and its single
output record. -/
theorem c1_witness :
    recordOfGroup "p" (aggOf c1ScenarioRows ("Open", "Jun 1, 2024")) (2024, 6, 1)
        ∈ processTournamentRecords c1ScenarioRows "p"
    ∧ ((∃ k ∈ groupKeyList c1ScenarioRows,
        (recordOfGroup "p" (aggOf c1ScenarioRows ("Open", "Jun 1, 2024")) (2024, 6, 1)).strokes_gained_total
            = (meanOpt ((rowsOf c1ScenarioRows k).filterMap (fun x => cleanSG x.total))).map round3
        ∧ (recordOfGroup "p" (aggOf c1ScenarioRows ("Open", "Jun 1, 2024")) (2024, 6, 1)).strokes_gained_off_tee
            = (meanOpt ((rowsOf c1ScenarioRows k).filterMap (fun x => cleanSG x.ott))).map round3
        ∧ (recordOfGroup "p" (aggOf c1ScenarioRows ("Open", "Jun 1, 2024")) (2024, 6, 1)).strokes_gained_approach
            = (meanOpt ((rowsOf c1ScenarioRows k).filterMap (fun x => cleanSG x.app))).map round3
        ∧ (recordOfGroup "p" (aggOf c1ScenarioRows ("Open", "Jun 1, 2024")) (2024, 6, 1)).strokes_gained_around_green
            = (meanOpt ((rowsOf c1ScenarioRows k).filterMap (fun x => cleanSG x.arg))).map round3
        ∧ (recordOfGroup "p" (aggOf c1ScenarioRows ("Open", "Jun 1, 2024")) (2024, 6, 1)).strokes_gained_putting
            = (meanOpt ((rowsOf c1ScenarioRows k).filterMap (fun x => cleanSG x.putt))).map round3
        ∧ (recordOfGroup "p" (aggOf c1ScenarioRows ("Open", "Jun 1, 2024")) (2024, 6, 1)).total_score
            = some ((rowsOf c1ScenarioRows k).filterMap (fun x => x.round_score)).sum)
      ∧ (processTournamentRecords c1ScenarioRows "p").map
            (fun x => (x.strokes_gained_total, x.total_score))
          = [(some ((6 : ℚ)/5), some 138)]) :=
  ⟨by with_unfolding_all decide,
   c1_amended c1ScenarioRows "p" _ (by with_unfolding_all decide)⟩

/-! ### Claim C5 -/

/-- Claim C5: for every aggregated group, `finish_position` is null exactly
when the group's numeric finish is missing or at least `900`, and
`is_made_cut` is false exactly when the finish text is one of `CUT`, `WD`,
`DQ`, `MDF`; concretely, finish text `"CUT"` gives `is_made_cut = false`
and `"T5"` gives `is_made_cut = true`. -/
theorem c5_finish_normalization (pid : String) (g : AggGroup) (ymd : Nat × Nat × Nat) :
    ((recordOfGroup pid g ymd).finish_position = none
        ↔ g.fin_numeric.all (fun v => 900 ≤ v) = true)
    ∧ ((recordOfGroup pid g ymd).is_made_cut = false
        ↔ g.fin_text.any (fun t => finTerminal.contains t) = true)
    ∧ (processTournamentRecords [c5CutRow] "p").map (fun r => r.is_made_cut) = [false]
    ∧ (processTournamentRecords [c5T5Row] "p").map (fun r => r.is_made_cut) = [true] := by
  refine ⟨?_, ?_, by with_unfolding_all rfl, by with_unfolding_all rfl⟩
  · cases hv : g.fin_numeric with
    | none => simp [recordOfGroup, hv]
    | some v =>
      by_cases h9 : v < 900
      · simp [recordOfGroup, hv, h9, not_le.mpr h9]
      · simp [recordOfGroup, hv, h9, not_lt.mp h9]
  · cases ht : g.fin_text with
    | none => simp [recordOfGroup, ht]
    | some t => simp [recordOfGroup, ht]

/-! ### Claim C7 -/

/-- Claim C7: the output has exactly one record per group whose scraped
date parses in the `"%b %d, %Y"` format — a group with an unparseable date
contributes nothing (and raises nothing, the embedding being total), while
every group with a parseable date still contributes its record. -/
theorem c7_malformed_date_dropped (rows : List RawRound) (pid : String) :
    (processTournamentRecords rows pid).length
        = (groupKeyList rows).countP (fun k => (parseMDY k.2).isSome)
    ∧ ∀ k ∈ groupKeyList rows, ∀ ymd, parseMDY k.2 = some ymd →
        recordOfGroup pid (aggOf rows k) ymd ∈ processTournamentRecords rows pid := by
  constructor
  · unfold processTournamentRecords
    rw [length_filterMap_eq_countP]
    congr 1
    funext k
    cases hp : parseMDY k.2 <;> simp [hp]
  · intro k hk ymd hp
    exact List.mem_filterMap.mpr ⟨k, hk, by rw [hp]; rfl⟩

/-- Witness for `c7_malformed_date_dropped`: with one good and one
malformed date, the length equation holds and the good group's record is
emitted. -/
theorem c7_witness :
    (processTournamentRecords c7Rows "p").length
        = (groupKeyList c7Rows).countP (fun k => (parseMDY k.2).isSome)
    ∧ recordOfGroup "p" (aggOf c7Rows ("Open", "Jun 1, 2024")) (2024, 6, 1)
        ∈ processTournamentRecords c7Rows "p" :=
  ⟨(c7_malformed_date_dropped c7Rows "p").1,
   (c7_malformed_date_dropped c7Rows "p").2 ("Open", "Jun 1, 2024")
     (by with_unfolding_all decide) (2024, 6, 1) (by with_unfolding_all rfl)⟩

/-! ### Claim C2 -/

/-- A small registry: no exact match for `"John Rahm"`, one substring
candidate whose own surname matches. -/
def c2Registry : List PlayerRec :=
  [{ id := "1", name := "Jon Rahm" }, { id := "2", name := "Sam Burns" }]

/-- Claim C2: `get_player_id` behaves exactly as the spec's resolver —
the first exact name match's id when one exists, otherwise the id of the
first registry record that contains the input's last whitespace token as a
case-insensitive substring and whose own last token equals it
case-insensitively, and `None` when there is no such record.  The
hypothesis excludes token-less names, on which the Python code raises
`IndexError` instead of returning. -/
theorem c2_identity_resolver (registry : List PlayerRec) (name : String)
    (h : pyTokens name ≠ []) :
    getPlayerId registry name = resolverSpec registry name := by
  unfold getPlayerId resolverSpec
  rw [head?_filter_eq_find?]
  cases hf : registry.find? (fun p => p.name == name) with
  | some p => rfl
  | none =>
    cases hl : (pyTokens name).getLast? with
    | none => exact absurd (List.getLast?_eq_none_iff.mp hl) h
    | some last =>
      dsimp only
      rw [find?_filter]
      cases hc : registry.find?
          (fun p => containsCI p.name last && lastTokenLower p.name == some (strLower last)) with
      | some p => rfl
      | none => rfl

/-- Witness for `c2_identity_resolver` on a concrete registry and the
surname-matched name `"John Rahm"`. -/
theorem c2_witness :
    pyTokens "John Rahm" ≠ []
    ∧ getPlayerId c2Registry "John Rahm" = resolverSpec c2Registry "John Rahm" :=
  ⟨by with_unfolding_all decide,
   c2_identity_resolver c2Registry "John Rahm" (by with_unfolding_all decide)⟩

/-! ### Claim C3 -/

/-- A store where the keyed upsert fails with an `on_conflict` message and
the fallback upsert fails too. -/
def c3AbortStore : StoreBehavior :=
  { keyed := Except.error "no unique constraint matching the ON_CONFLICT specification"
    plain := Except.error "schema cache mismatch" }

/-- Two players: the first hits a double write failure, the second would
succeed. -/
def c3Steps : List PlayerStep :=
  [PlayerStep.run true c3AbortStore false,
   PlayerStep.run true { keyed := Except.ok (), plain := Except.ok () } false]

/-- Claim C3 as stated is false on the code in both halves: a keyed-upsert
failure whose message lacks `"on_conflict"` triggers no retry at all, and
when the retried write also fails the exception escapes the player loop,
so the run does not continue with the remaining players. -/
theorem c3_counterexample :
    (writeTournament { keyed := Except.error "network timeout", plain := Except.ok () }).fallbackAttempted = false
    ∧ ¬ ((runLoop c3Steps).aborted = none
          ∧ (runLoop c3Steps).processedCount = c3Steps.length) :=
  ⟨by with_unfolding_all rfl, by with_unfolding_all decide⟩

/-- Claim C3 (amended): when the keyed batch upsert fails with an error
message containing `"on_conflict"` (case-insensitively), the write is
retried exactly once with the permissive no-key upsert; a first failure
without `"on_conflict"` in the message triggers no retry (and the success
counter is still incremented); and if the retried write also fails, the
exception propagates uncaught and aborts the rest of the run — no further
player is processed. -/
theorem c3_amended (e e2 : String) (rest : List PlayerStep)
    (h : substrOf "on_conflict" (strLower e) = true) :
    writeTournament ⟨Except.error e, Except.ok ()⟩ = ⟨true, 1, true, none⟩
    ∧ writeTournament ⟨Except.error e, Except.error e2⟩ = ⟨true, 0, false, some e2⟩
    ∧ (∀ f : String, substrOf "on_conflict" (strLower f) = false →
        writeTournament ⟨Except.error f, Except.ok ()⟩ = ⟨false, 1, false, none⟩)
    ∧ runLoop (PlayerStep.run true ⟨Except.error e, Except.error e2⟩ false :: rest)
        = ⟨1, 0, 0, 0, some e2⟩ := by
  refine ⟨?_, ?_, ?_, ?_⟩
  · simp [writeTournament, h]
  · simp [writeTournament, h]
  · intro f hf
    simp [writeTournament, hf]
  · simp [runLoop, stepResult, writeTournament, h]

/-- Witness for `c3_amended` at a concrete pair of error messages. -/
theorem c3_witness :
    substrOf "on_conflict" (strLower "missing ON_CONFLICT target") = true
    ∧ (writeTournament ⟨Except.error "missing ON_CONFLICT target", Except.ok ()⟩
        = ⟨true, 1, true, none⟩
      ∧ writeTournament ⟨Except.error "missing ON_CONFLICT target", Except.error "schema mismatch"⟩
        = ⟨true, 0, false, some "schema mismatch"⟩
      ∧ (∀ f : String, substrOf "on_conflict" (strLower f) = false →
          writeTournament ⟨Except.error f, Except.ok ()⟩ = ⟨false, 1, false, none⟩)
      ∧ runLoop (PlayerStep.run true
            ⟨Except.error "missing ON_CONFLICT target", Except.error "schema mismatch"⟩ false :: [])
          = ⟨1, 0, 0, 0, some "schema mismatch"⟩) :=
  ⟨by with_unfolding_all rfl,
   c3_amended "missing ON_CONFLICT target" "schema mismatch" [] (by with_unfolding_all rfl)⟩

/-! ### Claim C9 -/

/-- Claim C9: when the keyed upsert raises a message without
`"on_conflict"`, no fallback write is attempted, yet `tourn_ok` is still
incremented — so the printed counter can exceed the number of players
whose records were actually written (`tournWrites` stays `0`). -/
theorem c9_counter_inflation (e : String) (p : Except String Unit)
    (h : substrOf "on_conflict" (strLower e) = false) :
    (writeTournament ⟨Except.error e, p⟩).fallbackAttempted = false
    ∧ (writeTournament ⟨Except.error e, p⟩).tournOkDelta = 1
    ∧ (writeTournament ⟨Except.error e, p⟩).wrote = false
    ∧ (runLoop [PlayerStep.run true ⟨Except.error e, p⟩ false]).tournOk = 1
    ∧ (runLoop [PlayerStep.run true ⟨Except.error e, p⟩ false]).tournWrites = 0 := by
  refine ⟨?_, ?_, ?_, ?_, ?_⟩ <;> simp [writeTournament, runLoop, stepResult, h]

/-- Witness for `c9_counter_inflation` at a concrete non-conflict error. -/
theorem c9_witness :
    substrOf "on_conflict" (strLower "permission denied") = false
    ∧ ((writeTournament ⟨Except.error "permission denied", Except.ok ()⟩).fallbackAttempted = false
      ∧ (writeTournament ⟨Except.error "permission denied", Except.ok ()⟩).tournOkDelta = 1
      ∧ (writeTournament ⟨Except.error "permission denied", Except.ok ()⟩).wrote = false
      ∧ (runLoop [PlayerStep.run true ⟨Except.error "permission denied", Except.ok ()⟩
          false]).tournOk = 1
      ∧ (runLoop [PlayerStep.run true ⟨Except.error "permission denied", Except.ok ()⟩
          false]).tournWrites = 0) :=
  ⟨by with_unfolding_all rfl,
   c9_counter_inflation "permission denied" (Except.ok ()) (by with_unfolding_all rfl)⟩

/-! ### Claim C4 -/

/-- A skill payload with one category. -/
def c4Payload : ReloadData :=
  { dg_id := some 1
    break_skills := [{ bin := "driving", perc := some 50, val := some "+0.5" }] }

/-- Finding in a list with one element appended. -/
theorem find?_append_single {α : Type} (p : α → Bool) (l : List α) (a : α) :
    (l ++ [a]).find? p
      = match l.find? p with
        | some x => some x
        | none => if p a then some a else none := by
  induction l with
  | nil => by_cases h : p a <;> simp [List.find?_cons, h]
  | cons b bs ih =>
    by_cases hb : p b <;> simp [List.find?_cons, hb, ih]

/-- Pointwise description of a batch upsert: the last record written for a
key wins, every other key keeps its prior row. -/
theorem upsertTournBatch_apply (recs : List TournamentRecord) (s : TournStore)
    (k : String × String × String) :
    upsertTournBatch s recs k
      = match recs.reverse.find? (fun r => tournKey r == k) with
        | some r => some r
        | none => s k := by
  induction recs generalizing s with
  | nil => rfl
  | cons r rs ih =>
    show upsertTournBatch (upsertTourn s r) rs k = _
    rw [ih, List.reverse_cons, find?_append_single]
    cases h : rs.reverse.find? (fun x => tournKey x == k) with
    | some x => rfl
    | none =>
      by_cases hk : tournKey r = k
      · simp [upsertTourn, hk]
      · simp [upsertTourn, hk, Ne.symm hk]

/-- Claim C4 as stated is false on the code: `process_skills` is not a
deterministic function of the fetched payload — it embeds the build-time
clock (`skills_updated_at = datetime.utcnow()`), so two runs on identical
fetched data store different `SkillSnapshot` rows. -/
theorem c4_counterexample :
    processSkills (some c4Payload) "2024-06-01T00:00:00"
      ≠ processSkills (some c4Payload) "2024-06-08T00:00:00" := by
  with_unfolding_all decide

/-- Claim C4 (amended): re-running on identical fetched data is a
storage-level no-op for TournamentResult rows (the keyed upsert replaces
each row in full, so the batch is idempotent), and the stored
SkillSnapshot rows of the two runs are identical except for the
`skills_updated_at` freshness timestamp, which records the build time. -/
theorem c4_amended :
    (∀ (s : TournStore) (rows : List RawRound) (pid : String),
        upsertTournBatch (upsertTournBatch s (processTournamentRecords rows pid))
            (processTournamentRecords rows pid)
          = upsertTournBatch s (processTournamentRecords rows pid))
    ∧ (∀ (rd : Option ReloadData) (t1 t2 : String),
        (processSkills rd t1).map eraseTime = (processSkills rd t2).map eraseTime) := by
  constructor
  · intro s rows pid
    funext k
    have h1 := upsertTournBatch_apply (processTournamentRecords rows pid)
        (upsertTournBatch s (processTournamentRecords rows pid)) k
    have h2 := upsertTournBatch_apply (processTournamentRecords rows pid) s k
    rw [h1, h2]
    cases h : (processTournamentRecords rows pid).reverse.find? (fun r => tournKey r == k) with
    | some x => rfl
    | none => rfl
  · intro rd t1 t2
    cases rd with
    | none => rfl
    | some r =>
      by_cases h : r.break_skills = [] <;> simp [processSkills, h, eraseTime]

/-! ### Claim C6 -/

/-- The spec scenario's payload: every category except `"putting"`. -/
def c6ScenarioSkills : List SkillRec :=
  [⟨"driving", some 90, some "+0.8"⟩, ⟨"ott_1", some 80, none⟩, ⟨"ott_2", some 70, none⟩,
   ⟨"approach", some 85, some "+0.9"⟩, ⟨"app_1", some 60, none⟩, ⟨"app_2", some 61, none⟩,
   ⟨"app_3", some 62, none⟩, ⟨"app_4", some 63, none⟩,
   ⟨"around", some 75, some "+0.3"⟩, ⟨"arg_1", some 50, none⟩, ⟨"arg_2", some 51, none⟩,
   ⟨"arg_3", some 52, none⟩,
   ⟨"putt_1", some 40, none⟩, ⟨"putt_2", some 41, none⟩, ⟨"putt_3", some 42, none⟩]

/-- The snapshot the scenario payload must produce: percentiles copied per
the category table, `putting_overall` and `sg_putting` null, the three
present absolute values parsed and rounded. -/
def c6ExpectedSnapshot : SkillSnapshot :=
  { dg_id := some 7
    driving_overall := some 90
    driving_distance := some 80
    driving_accuracy := some 70
    approach_overall := some 85
    approach_50_100 := some 60
    approach_100_150 := some 61
    approach_150_200 := some 62
    approach_200_plus := some 63
    around_green_overall := some 75
    around_green_fairway := some 50
    around_green_rough := some 51
    around_green_bunker := some 52
    putting_overall := none
    putting_2_5_feet := some 40
    putting_5_30 := some 41
    putting_30_plus := some 42
    sg_driving := some ((4 : ℚ)/5)
    sg_approach := some ((9 : ℚ)/10)
    sg_around_green := some ((3 : ℚ)/10)
    sg_putting := none
    skills_updated_at := "2026-01-01T00:00:00" }

/-- A payload whose driving value contains an interior plus sign. -/
def c6BadPayload : ReloadData :=
  { dg_id := none, break_skills := [⟨"driving", some 50, some "1+2"⟩] }

/-- Claim C6 as stated is false on the code: the `sg` helper removes every
`"+"` (Python `str.replace`), not only a leading one.  On the value
`"1+2"` — unparsable after stripping only a leading plus, so the claim
requires null — the code emits `12.0`. -/
theorem c6_counterexample :
    (processSkills (some c6BadPayload) "t").map (fun s => s.sg_driving) = some (some 12)
    ∧ specSgLeadingPlus (valOf c6BadPayload.break_skills "driving") = none
    ∧ (some (12 : ℚ) : Option ℚ) ≠ none :=
  ⟨by with_unfolding_all rfl, by with_unfolding_all rfl, by with_unfolding_all decide⟩

/-- Claim C6 (amended): for every non-empty skill payload each named output
field is populated from the fixed category-key table; the four absolute
strokes-gained fields have every plus sign removed and are parsed as
decimals rounded to three fractional digits; a field whose category is
missing or whose value is unparsable is present with value null, never
omitted; the scenario payload without `"putting"` yields `putting_overall
= null` and `sg_putting = null` with all fields for present categories
populated. -/
theorem c6_amended (d : Option ℤ) (s0 : SkillRec) (rest : List SkillRec) (ts : String) :
    processSkills (some ⟨d, s0 :: rest⟩) ts
      = some ⟨d,
          percOf (s0 :: rest) "driving", percOf (s0 :: rest) "ott_1", percOf (s0 :: rest) "ott_2",
          percOf (s0 :: rest) "approach", percOf (s0 :: rest) "app_1",
          percOf (s0 :: rest) "app_2", percOf (s0 :: rest) "app_3", percOf (s0 :: rest) "app_4",
          percOf (s0 :: rest) "around", percOf (s0 :: rest) "arg_1", percOf (s0 :: rest) "arg_2",
          percOf (s0 :: rest) "arg_3",
          percOf (s0 :: rest) "putting", percOf (s0 :: rest) "putt_1",
          percOf (s0 :: rest) "putt_2", percOf (s0 :: rest) "putt_3",
          sgParse (valOf (s0 :: rest) "driving"), sgParse (valOf (s0 :: rest) "approach"),
          sgParse (valOf (s0 :: rest) "around"), sgParse (valOf (s0 :: rest) "putting"), ts⟩
    ∧ processSkills (some ⟨some 7, c6ScenarioSkills⟩) "2026-01-01T00:00:00"
        = some c6ExpectedSnapshot := by
  constructor
  · simp [processSkills]
  · with_unfolding_all rfl

/-! ### Claim C8 -/

/-- `notComma` holds on every character other than the comma. -/
theorem notComma_of_ne {a : Char} (h : a ≠ ',') : notComma a = true :=
  decide_eq_true h

/-- `notComma` fails on the comma itself. -/
theorem notComma_self : notComma ',' = false := rfl

/-- `takeWhile notComma` stops exactly at the first comma. -/
theorem take_until_comma (l1 l2 : List Char) (h : ',' ∉ l1) :
    (l1 ++ ',' :: l2).takeWhile notComma = l1 := by
  induction l1 with
  | nil => simp [List.takeWhile_cons, notComma_self]
  | cons a as ih =>
    have ha : notComma a = true :=
      notComma_of_ne (fun e => h (by rw [e]; exact List.mem_cons_self ',' as))
    simp only [List.cons_append, List.takeWhile_cons]
    simp [ha, ih (fun hm => h (List.mem_cons_of_mem a hm))]

/-- `dropWhile notComma` keeps the suffix from the first comma on. -/
theorem drop_from_comma (l1 l2 : List Char) (h : ',' ∉ l1) :
    (l1 ++ ',' :: l2).dropWhile notComma = ',' :: l2 := by
  induction l1 with
  | nil => simp [List.dropWhile_cons, notComma_self]
  | cons a as ih =>
    have ha : notComma a = true :=
      notComma_of_ne (fun e => h (by rw [e]; exact List.mem_cons_self ',' as))
    simp only [List.cons_append, List.dropWhile_cons]
    simp [ha, ih (fun hm => h (List.mem_cons_of_mem a hm))]

/-- Claim C8: the name normalization maps `"Last, First"` (first comma as
separator, surrounding whitespace stripped from each part, single-space
separation) to `"First Last"`; a comma-free name is returned stripped; and
an already-canonical name (comma-free and strip-invariant) is returned
unchanged. -/
theorem c8_name_normalizer (lastN firstN s : String)
    (hL : ',' ∉ lastN.toList) (hs : ',' ∉ s.toList) :
    normalizeScrapedName (lastN ++ "," ++ firstN) = pyStrip firstN ++ " " ++ pyStrip lastN
    ∧ normalizeScrapedName s = pyStrip s
    ∧ (pyStrip s = s → normalizeScrapedName s = s) := by
  have h2 : normalizeScrapedName s = pyStrip s := by
    have hc : ¬ (s.toList.contains ',' = true) := fun hcon => hs (List.elem_iff.mp hcon)
    unfold normalizeScrapedName
    rw [if_neg hc]
  refine ⟨?_, h2, fun hid => h2.trans hid⟩
  have htl : (lastN ++ "," ++ firstN).toList = lastN.toList ++ ',' :: firstN.toList := by
    show (lastN ++ "," ++ firstN).data = lastN.data ++ ',' :: firstN.data
    rw [String.data_append, String.data_append, List.append_assoc]
    rfl
  have hcont : (lastN.toList ++ ',' :: firstN.toList).contains ',' = true :=
    List.elem_iff.mpr (List.mem_append_right _ (List.mem_cons_self _ _))
  unfold normalizeScrapedName
  rw [htl, if_pos hcont, take_until_comma _ _ hL, drop_from_comma _ _ hL]
  rfl

/-- Witness for `c8_name_normalizer` on `"Rahm, Jon"` and the canonical
`"Jon Rahm"`. -/
theorem c8_witness :
    ',' ∉ "Rahm".toList
    ∧ (normalizeScrapedName ("Rahm" ++ "," ++ " Jon") = pyStrip " Jon" ++ " " ++ pyStrip "Rahm"
      ∧ normalizeScrapedName "Jon Rahm" = pyStrip "Jon Rahm"
      ∧ (pyStrip "Jon Rahm" = "Jon Rahm" → normalizeScrapedName "Jon Rahm" = "Jon Rahm")) :=
  ⟨by decide, c8_name_normalizer "Rahm" " Jon" "Jon Rahm" (by decide) (by decide)⟩

/-! ### Claim C10 -/

/-- Claim C10: the tournament-id and field-file sources pass every player
name through the `NAME_ALIASES` table, the Data Golf past-results source
does not; for `"Nicolas Echavarria"` — a key of the table — the selected
source therefore determines which spelling the external lookup uses. -/
theorem c10_alias_asymmetry :
    (∀ n : String, loadPlayersFromTournament [some n]
        = if n = "" then none else some [aliasGet n])
    ∧ (∀ l : List String, fetchFieldPlayers l = l.map normalizeScrapedName)
    ∧ loadPlayersFromFieldFile ["Player", "Nicolas Echavarria"] = ["Nico Echavarria"]
    ∧ loadPlayersFromTournament [some "Nicolas Echavarria"] = some ["Nico Echavarria"]
    ∧ fetchFieldPlayers ["Nicolas Echavarria"] = ["Nicolas Echavarria"]
    ∧ ("Nicolas Echavarria", "Nico Echavarria") ∈ NAME_ALIASES
    ∧ aliasGet "Nicolas Echavarria" ≠ "Nicolas Echavarria" := by
  refine ⟨?_, fun l => rfl, ?_, ?_, ?_, ?_, ?_⟩
  · intro n
    by_cases h : n = "" <;> simp [loadPlayersFromTournament, h]
  · with_unfolding_all rfl
  · with_unfolding_all rfl
  · with_unfolding_all rfl
  · with_unfolding_all decide
  · with_unfolding_all decide

